import Mathlib

/-!
Verification of the realtps import engine (`realtps_import/src/main.rs`).

The development shallowly embeds the program's core:
* the per-chain backward-walking import loop of `Importer::import`
  (lines 307-408), as `importWalk` / `importPass`;
* the TPS window computation `calculate_for_chain` (lines 447-537),
  as `calcLoop` / `calculate_for_chain`;
* the per-chain fan-out of `Importer::calculate` (lines 411-439),
  as `calcCollect` / `Importer.calculate`;
* the job loop `Importer::do_job` and the scheduler step of `run`
  (lines 68-90 and 261-276), as `do_job` / `schedStep`;
* the block conversion and `get_block` adapters of `EthersClient` and
  `SolanaClient` (lines 139-177 and 539-560).

Machine integers are modelled as `Nat` with explicit bound checks where the
source performs a fallible conversion (`u32::try_from`, `u64::try_from`) or a
checked operation (`checked_add`, `checked_sub`).  Rust panics
(`expect`, `assert!`) are modelled as a distinguished `panicked` outcome,
separate from recoverable `anyhow` errors (`failed`), because the two travel
different paths through the job machinery.  The persisted store for a single
chain is a function `Nat → Option Block`; remote fetches during one import
pass are a function `Nat → Block` (the inner retry loop of the source repeats
a fetch until a block is present, so by the time the walk proceeds a block
has always been obtained).
-/

/-- The `Block` record of `realtps_common`, with the fields the import and
calculation code uses.  `hash` and `parent_hash` are opaque strings. -/
structure Block where
  block_number : Nat
  timestamp : Nat
  num_txs : Nat
  hash : String
  parent_hash : String
deriving DecidableEq, Repr

/-- Per-chain view of the persisted store: the block stored at each height. -/
def Store : Type := Nat → Option Block

/-- Model of `db.store_block`: store a block at a height, overwriting any prior value. -/
def Store.insertAt (store : Store) (k : Nat) (b : Block) : Store :=
  fun j => if j = k then some b else store j

/-- The `Job` enum: `Import(chain)` or `Calculate`. -/
inductive Job (C : Type) where
  | Import (c : C)
  | Calculate
deriving DecidableEq, Repr

/-- The `INITIAL_SYNC_BLOCKS` constant (line 309). -/
def INITIAL_SYNC_BLOCKS : Nat := 100

/-- The backward walk of `Importer::import` (the `loop` at lines 314-397).
Arguments mirror the loop state: the current `block_number`, the running
`synced` counter, and the store.  `remote` gives the block the inner fetch
loop eventually obtains for each height; `initial_sync` and `highest`
mirror the variables of the same names (the pre-pass high-water mark).
Returns the store after the walk together with the final `synced` count
(the number of `store_block` calls made by the walk).

Each iteration: fetch the block for `block_number`, store it, bump `synced`;
stop if this is an initial sync that just stored its 100th block; stop at
genesis (`checked_sub(1)` fails); otherwise load the locally stored block at
`block_number - 1` and either stop (hash link confirmed at or below the old
high-water mark) or continue downward (missing, reorged, or leftover
partial-import predecessor). -/
def importWalk (remote : Nat → Block) (initial_sync : Bool) (highest : Option Nat) :
    Nat → Nat → Store → Store × Nat
  | 0, synced, store =>
    let block := remote 0
    let store1 := store.insertAt 0 block
    let synced1 := synced + 1
    if initial_sync = true ∧ synced1 = INITIAL_SYNC_BLOCKS then
      (store1, synced1)
    else
      -- block_number.checked_sub(1) is None: completed import to genesis
      (store1, synced1)
  | Nat.succ prev_block_number, synced, store =>
    let block := remote (prev_block_number + 1)
    let store1 := store.insertAt (prev_block_number + 1) block
    let synced1 := synced + 1
    if initial_sync = true ∧ synced1 = INITIAL_SYNC_BLOCKS then
      (store1, synced1)
    else
      match store1 prev_block_number with
      | none =>
        -- continue - don't have the prev block
        importWalk remote initial_sync highest prev_block_number synced1 store1
      | some prev_block =>
        if prev_block.hash ≠ block.parent_hash then
          -- reorg detected; continue - have wrong version of prev block
          importWalk remote initial_sync highest prev_block_number synced1 store1
        else
          match highest with
          | some highest_block_number =>
            if prev_block_number ≤ highest_block_number then
              -- completed import of chain to prev_block_number
              (store1, synced1)
            else
              -- incomplete previous import; keep going and overwrite
              importWalk remote initial_sync highest prev_block_number synced1 store1
          | none =>
            -- incomplete previous import; keep going and overwrite
            importWalk remote initial_sync highest prev_block_number synced1 store1

/-- One pass of `Importer::import` for one chain (lines 278-409), minus the
delays.  `head` is the head block number reported by the client, `highest`
the stored high-water mark.  Returns the store after the pass, the high-water
mark after the pass, and the follow-up jobs the pass returns (line 408).
When `highest == Some head`, the walk and the high-water-mark write are both
skipped (line 307). -/
def importPass {C : Type} (chain : C) (remote : Nat → Block) (head : Nat)
    (highest : Option Nat) (store : Store) :
    Store × Option Nat × List (Job C) :=
  if highest = some head then
    (store, highest, [Job.Import chain])
  else
    ((importWalk remote highest.isNone highest head 0 store).1, some head,
      [Job.Import chain])

/-- Hash-linkage of the stored pair at adjacent heights `h` and `h - 1`:
trivially true when either side is absent. -/
def linkedb (store : Store) (h : Nat) : Bool :=
  match store h, store (h - 1) with
  | some b, some bp => b.parent_hash == bp.hash
  | _, _ => true

/-- Outcome of the inner `loop` of `calculate_for_chain` (lines 487-525):
either a panic (`assert!` or `checked_add(..).expect`), or the loop broke
with the accumulated `num_txs` and the `init_timestamp` of the stopping
block. -/
inductive LoopRes where
  | panicked (msg : String)
  | done (num_txs : Nat) (init_timestamp : Nat)
deriving DecidableEq, Repr

/-- Outcome of `calculate_for_chain`: a panic (which a spawned task turns
into a `JoinError`, failing the whole `Calculate` job), a recoverable
`anyhow` error (the per-chain logged-failure path of `Importer::calculate`),
or success.  The source computes `tps` as the `f64` division
`num_txs_f64 / total_seconds_f64` of the two `u32`-checked values; `ok`
carries that numerator and denominator. -/
inductive CalcRes where
  | panicked (msg : String)
  | failed (msg : String)
  | ok (num_txs : Nat) (total_seconds : Nat)
deriving DecidableEq, Repr

/-- Constant `60 * 60 * 24 * 7` (line 471). -/
def seconds_per_week : Nat := 60 * 60 * 24 * 7

/-- Value `u64::MAX + 1`: bound used to model `u64` `checked_add`. -/
def u64Bound : Nat := 2 ^ 64

/-- Value `u32::MAX + 1`: bound used to model `u32::try_from`. -/
def u32Bound : Nat := 2 ^ 32

/-- The inner `loop` of `calculate_for_chain` (lines 487-525).  State:
`current_block_number`, `current_block`, accumulated `num_txs`.  Each
iteration asserts `current_block_number != 0`, loads the predecessor,
and on a hit accumulates the current block's `num_txs`
(`checked_add(..).expect("overflow")`) and breaks at the trailing-window
boundary (`prev_block.timestamp <= min_timestamp`) or at genesis
(`prev_block.block_number == 0`); a miss breaks with the current block's
timestamp.  The non-monotonic-timestamp check (lines 506-511) only logs and
is omitted. -/
def calcLoop (load : Nat → Option Block) (min_timestamp : Nat) :
    Nat → Block → Nat → LoopRes
  | 0, _, _ => .panicked "assertion failed: current_block_number != 0"
  | Nat.succ prev_block_number, current_block, num_txs =>
    match load prev_block_number with
    | none => .done num_txs current_block.timestamp
    | some prev_block =>
      if num_txs + current_block.num_txs < u64Bound then
        if prev_block.timestamp ≤ min_timestamp then
          .done (num_txs + current_block.num_txs) prev_block.timestamp
        else if prev_block.block_number = 0 then
          .done (num_txs + current_block.num_txs) prev_block.timestamp
        else
          calcLoop load min_timestamp prev_block_number prev_block
            (num_txs + current_block.num_txs)
      else
        .panicked "overflow"

/-- Function `calculate_for_chain` (lines 447-537), minus logging.  The store is the
per-chain `load_block` view.  Mirrors, in order: the `ok_or_else` on the
missing high-water mark, the `expect("first block")` load of the block at the
high-water mark, the `checked_sub(seconds_per_week).expect("underflow")`,
the second load (`expect("first_block")`), the loop, the
`assert!(init_timestamp <= latest_timestamp)`, and the two `u32::try_from`
range checks (seconds first, then transaction count). -/
def calculate_for_chain (highest_block_number : Option Nat)
    (load : Nat → Option Block) : CalcRes :=
  match highest_block_number with
  | none => .failed "no data for chain"
  | some hbn =>
    match load hbn with
    | none => .panicked "first block"
    | some first =>
      if first.timestamp < seconds_per_week then
        .panicked "underflow"
      else
        match load hbn with
        | none => .panicked "first_block"
        | some current_block =>
          match calcLoop load (first.timestamp - seconds_per_week) hbn
              current_block 0 with
          | .panicked m => .panicked m
          | .done num_txs init_timestamp =>
            if first.timestamp < init_timestamp then
              .panicked "assertion failed: init_timestamp <= latest_timestamp"
            else if u32Bound ≤ first.timestamp - init_timestamp then
              .failed "seconds overflows u32"
            else if u32Bound ≤ num_txs then
              .failed "num txs overflows u32"
            else
              .ok num_txs (first.timestamp - init_timestamp)

/-- The sequential await-and-store loop of `Importer::calculate`
(lines 421-434) over the chains, on a per-chain store view.  Returns the
list of `(chain, tps numerator, tps denominator)` triples stored via
`store_tps`, together with `some msg` when a chain's spawned task panicked
(the `task.await?` turns the panic into a `JoinError` that aborts the whole
`Calculate` job); per-chain `failed` outcomes are only logged and skipped. -/
def calcCollect {C : Type} (hwm : C → Option Nat) (load : C → Nat → Option Block) :
    List C → List (C × Nat × Nat) × Option String
  | [] => ([], none)
  | c :: rest =>
    match calculate_for_chain (hwm c) (load c) with
    | .panicked m => ([], some m)
    | .failed _ => calcCollect hwm load rest
    | .ok n d =>
      let r := calcCollect hwm load rest
      ((c, n, d) :: r.1, r.2)

/-- One pass of `Importer::calculate` (lines 411-439), minus the delay:
the stored TPS values and, on success, the follow-up `[Job::Calculate]`
(line 438); a task panic surfaces as a job error. -/
def Importer.calculate {C : Type} (chains : List C) (hwm : C → Option Nat)
    (load : C → Nat → Option Block) :
    Except String (List (C × Nat × Nat) × List (Job C)) :=
  match calcCollect hwm load chains with
  | (stored, none) => .ok (stored, [Job.Calculate])
  | (_, some m) => .error m

/-- Function `Importer::do_job` (lines 261-276): on a job error, log, delay, and
retry the same job; on success, return the follow-up jobs the pass
produced. -/
def do_job {C : Type} (job : Job C) (r : Except String (List (Job C))) :
    List (Job C) :=
  match r with
  | .ok new_jobs => new_jobs
  | .error _ => [job]

/-- One turn of the scheduler loop in `run` (lines 77-87): some in-flight
job (at index `i` of the pool) completes with outcome `r`; it leaves the
pool and the follow-up jobs `do_job` yields are pushed back. -/
def schedStep {C : Type} (pool : List (Job C)) (i : Nat)
    (r : Except String (List (Job C))) : List (Job C) :=
  match pool[i]? with
  | none => pool
  | some j => pool.eraseIdx i ++ do_job j r

/-- Raw shape of an `ethers` `Block<H256>` as used by `ethers_block_to_block`
(lines 539-548): optional number and hash (`expect`ed), a `U256` timestamp
(fallibly narrowed to `u64`), a transaction count, and a parent hash. -/
structure EthRawBlock where
  number : Option Nat
  timestamp : Nat
  txCount : Nat
  hash : Option String
  parentHash : String
deriving DecidableEq, Repr

/-- Raw shape of a Solana `EncodedConfirmedBlock` as used by
`solana_block_to_block` (lines 550-560): optional height and time
(`expect`ed), a signed block time (fallibly converted to `u64`), a
transaction count, and the two hashes. -/
structure SolRawBlock where
  blockHeight : Option Nat
  blockTime : Option Int
  txCount : Nat
  blockhash : String
  previousBlockhash : String
deriving DecidableEq, Repr

/-- Generic fetch outcome: panic, protocol error, or value. -/
inductive RRes (α : Type) where
  | panicked (msg : String)
  | failed (msg : String)
  | ok (a : α)
deriving DecidableEq, Repr

/-- Conversion `ethers_block_to_block` (lines 539-548): `expect("block number")`,
`u64::try_from(timestamp)` (error above `u64::MAX`), `expect("hash")`. -/
def ethers_block_to_block (b : EthRawBlock) : RRes Block :=
  match b.number with
  | none => .panicked "block number"
  | some n =>
    if b.timestamp < u64Bound then
      match b.hash with
      | none => .panicked "hash"
      | some h => .ok ⟨n, b.timestamp, b.txCount, h, b.parentHash⟩
    else
      .failed "integer overflow when casting to u64"

/-- Conversion `solana_block_to_block` (lines 550-560): `expect("block_number")`,
`expect("timestamp")`, `u64::try_from(i64)` (error when negative). -/
def solana_block_to_block (b : SolRawBlock) : RRes Block :=
  match b.blockHeight with
  | none => .panicked "block_number"
  | some n =>
    match b.blockTime with
    | none => .panicked "timestamp"
    | some t =>
      if 0 ≤ t then
        .ok ⟨n, t.toNat, b.txCount, b.blockhash, b.previousBlockhash⟩
      else
        .failed "out of range integral type conversion attempted"

/-- Method `EthersClient::get_block` (lines 148-155): the provider's response is
`Option`al; a missing block maps to `Ok(None)`, a present block is
converted. -/
def EthersClient.get_block (resp : Option EthRawBlock) : RRes (Option Block) :=
  match resp with
  | some b =>
    match ethers_block_to_block b with
    | .ok blk => .ok (some blk)
    | .failed e => .failed e
    | .panicked m => .panicked m
  | none => .ok none

/-- Method `SolanaClient::get_block` (lines 170-176): the RPC call is fallible and
its error (which is how the node reports a missing block) is propagated by
`?`; a successful response is converted.  There is no `Ok(None)` path. -/
def SolanaClient.get_block (resp : RRes SolRawBlock) : RRes (Option Block) :=
  match resp with
  | .failed e => .failed e
  | .panicked m => .panicked m
  | .ok b =>
    match solana_block_to_block b with
    | .ok blk => .ok (some blk)
    | .failed e => .failed e
    | .panicked m => .panicked m

/-! Concrete data used by counterexamples and witnesses. -/

/-- An empty per-chain store. -/
def emptyStore : Store := fun _ => none

/-- A hash-consistent remote chain: block `k` has hash `"h"` and parent hash
`"h"`, so adjacent fetched blocks always link up. -/
def okRemote : Nat → Block := fun k => ⟨k, 0, 0, "h", "h"⟩

/-- A remote whose responses at heights 7 and 6 are mutually inconsistent:
the block fetched at height 7 names parent `"q6"` but the block fetched at
height 6 has hash `"r6"` (as after a remote reorg between the two fetches).
The block at height 6 reconnects to the stored block at height 5. -/
def cexRemote : Nat → Block :=
  fun k =>
    if k = 7 then ⟨7, 0, 0, "r7", "q6"⟩
    else if k = 6 then ⟨6, 0, 0, "r6", "p5"⟩
    else ⟨k, 0, 0, "", ""⟩

/-- A store holding only the old high-water-mark block at height 5, with
hash `"p5"`. -/
def cexStore : Store :=
  fun k => if k = 5 then some ⟨5, 0, 0, "p5", "p4"⟩ else none

/-- A store for the reorg-repair witness: height 1 holds a block whose hash
`"A"` differs from the parent hash `"B"` of the remote block at height 2. -/
def reorgStore : Store :=
  fun k => if k = 1 then some ⟨1, 0, 0, "A", "z"⟩ else none

/-- The remote for the reorg-repair witness. -/
def reorgRemote : Nat → Block :=
  fun k =>
    if k = 2 then ⟨2, 0, 0, "B2", "B"⟩
    else if k = 1 then ⟨1, 0, 0, "B", "B0"⟩
    else ⟨0, 0, 0, "B0", ""⟩

/-- Ten blocks at heights 0..9, timestamps 60 seconds apart starting at
`t0`, five transactions each (the synthetic chain of the TPS window
example). -/
def c3Block (t0 k : Nat) : Block := ⟨k, t0 + 60 * k, 5, "", ""⟩

/-- The store holding exactly the blocks `c3Block t0 0` .. `c3Block t0 9`. -/
def c3Store (t0 : Nat) : Nat → Option Block :=
  fun k => if k ≤ 9 then some (c3Block t0 k) else none

/-- Two stored blocks whose accumulated transaction count (`2^32`) does not
fit in 32 bits. -/
def bigTxLoad : Nat → Option Block :=
  fun k =>
    if k = 1 then some ⟨1, 604800, 4294967296, "a", "b"⟩
    else if k = 0 then some ⟨0, 604800, 0, "b", "c"⟩
    else none

/-- Two stored blocks whose window span (`2^32 + 604800` seconds) does not
fit in 32 bits. -/
def bigSpanLoad : Nat → Option Block :=
  fun k =>
    if k = 1 then some ⟨1, 4294967296 + 604800, 5, "a", "b"⟩
    else if k = 0 then some ⟨0, 0, 0, "b", "c"⟩
    else none

/-- A healthy two-block store: the calculation on it succeeds. -/
def okLoad : Nat → Option Block :=
  fun k =>
    if k = 1 then some ⟨1, 604900, 7, "a", "b"⟩
    else if k = 0 then some ⟨0, 604800, 3, "b", "c"⟩
    else none

/-- Whether a calculation outcome is a panic (which aborts the whole
`Calculate` job rather than being skipped). -/
def isPanic : CalcRes → Bool
  | .panicked _ => true
  | _ => false

/-- The `store_tps` record a chain contributes when its calculation
succeeds: `some (chain, numerator, denominator)` on `ok`, nothing
otherwise. -/
def okStore? {C : Type} (c : C) : CalcRes → Option (C × Nat × Nat)
  | .ok n d => some (c, n, d)
  | _ => none

/-- A store whose only block sits at genesis (height 0). -/
def zeroLoad : Nat → Option Block :=
  fun k => if k = 0 then some ⟨0, 604800, 7, "a", "b"⟩ else none

/-- A store whose high-water-mark block has a timestamp under one week. -/
def staleLoad : Nat → Option Block :=
  fun k => if k = 2 then some ⟨2, 604799, 7, "a", "b"⟩ else none

/-- High-water marks for the isolation witness: chain 0 has none (its
calculation fails), chain 1 has mark 1. -/
def c6hwm : Nat → Option Nat :=
  fun c => if c = 0 then none else some 1

/-- Per-chain stores for the isolation witness: every chain sees the
healthy two-block store. -/
def c6load : Nat → Nat → Option Block :=
  fun _ => okLoad

/-! Theorems. -/

/-- Storing at a height makes that height hold that block. -/
theorem Store.insertAt_self (store : Store) (k : Nat) (b : Block) :
    store.insertAt k b k = some b := by
  simp [Store.insertAt]

/-- Storing at a height leaves every other height unchanged. -/
theorem Store.insertAt_ne (store : Store) (k : Nat) (b : Block) (j : Nat)
    (h : j ≠ k) : store.insertAt k b j = store j := by
  simp [Store.insertAt, h]

/-- The walk stores the fetched block at its entry height before anything
else, and every later step of the walk works strictly below it: at any
height at or above the entry height, the store after the walk is the entry
store with the entry block written. -/
theorem importWalk_entry (remote : Nat → Block) (isync : Bool)
    (highest : Option Nat) :
    ∀ (bn c : Nat) (store : Store) (k : Nat), bn ≤ k →
      (importWalk remote isync highest bn c store).1 k
        = (store.insertAt bn (remote bn)) k := by
  intro bn
  induction bn with
  | zero =>
    intro c store k hk
    simp only [importWalk]
    split <;> rfl
  | succ p ih =>
    intro c store k hk
    have hkp : k ≠ p := by omega
    simp only [importWalk]
    split
    · rfl
    · split
      · rw [ih (c + 1) _ k (by omega), Store.insertAt_ne _ _ _ _ hkp]
      · split
        · rw [ih (c + 1) _ k (by omega), Store.insertAt_ne _ _ _ _ hkp]
        · split
          · split
            · rfl
            · rw [ih (c + 1) _ k (by omega), Store.insertAt_ne _ _ _ _ hkp]
          · rw [ih (c + 1) _ k (by omega), Store.insertAt_ne _ _ _ _ hkp]

/-- C7: a pass with `head == highest` stores no blocks and leaves the
high-water mark unchanged; in every other case (including `head` below the
stored mark) the walk runs starting at `head` and the pass persists the
high-water mark as exactly `head`. -/
theorem importPass_highWaterMark {C : Type} (chain : C) (remote : Nat → Block)
    (head : Nat) (highest : Option Nat) (store : Store) :
    (highest = some head →
      importPass chain remote head highest store
        = (store, highest, [Job.Import chain]))
    ∧ (highest ≠ some head →
      (importPass chain remote head highest store).1
          = (importWalk remote highest.isNone highest head 0 store).1
        ∧ (importPass chain remote head highest store).2.1 = some head) := by
  constructor
  · intro h
    simp [importPass, h]
  · intro h
    simp [importPass, h]

/-- Witness for `importPass_highWaterMark`: the no-op case at
`head = highest = 3`, and the walking case at `head = 3`, `highest = some 1`. -/
theorem importPass_highWaterMark_witness :
    (importPass (0 : Nat) okRemote 3 (some 3) cexStore
        = (cexStore, some 3, [Job.Import 0]))
    ∧ ((importPass (0 : Nat) okRemote 3 (some 1) cexStore).1
          = (importWalk okRemote (some 1 : Option Nat).isNone (some 1) 3 0
              cexStore).1
        ∧ (importPass (0 : Nat) okRemote 3 (some 1) cexStore).2.1 = some 3) :=
  ⟨(importPass_highWaterMark 0 okRemote 3 (some 3) cexStore).1 rfl,
   (importPass_highWaterMark 0 okRemote 3 (some 1) cexStore).2 (by decide)⟩

/-- C4: when the locally stored block at height `p` has a hash different
from the parent hash of the block just fetched and stored at height `p + 1`
(and the initial-sync cap does not fire at this step), the walk does not
stop at `p`: it continues to height `p` and the store after the walk holds
the freshly fetched block at height `p`. -/
theorem importWalk_reorg_repair (remote : Nat → Block) (initial_sync : Bool)
    (highest : Option Nat) (p c : Nat) (store : Store) (prev_block : Block)
    (hstored : store p = some prev_block)
    (hmismatch : prev_block.hash ≠ (remote (p + 1)).parent_hash)
    (hnocap : ¬ (initial_sync = true ∧ c + 1 = INITIAL_SYNC_BLOCKS)) :
    importWalk remote initial_sync highest (p + 1) c store
      = importWalk remote initial_sync highest p (c + 1)
          (store.insertAt (p + 1) (remote (p + 1)))
    ∧ (importWalk remote initial_sync highest (p + 1) c store).1 p
        = some (remote p) := by
  have hstored1 : (store.insertAt (p + 1) (remote (p + 1))) p
      = some prev_block := by
    rw [Store.insertAt_ne _ _ _ _ (by omega)]
    exact hstored
  have hstep : importWalk remote initial_sync highest (p + 1) c store
      = importWalk remote initial_sync highest p (c + 1)
          (store.insertAt (p + 1) (remote (p + 1))) := by
    simp only [importWalk]
    rw [if_neg hnocap, hstored1]
    exact if_pos hmismatch
  refine ⟨hstep, ?_⟩
  rw [hstep, importWalk_entry remote initial_sync highest p (c + 1) _ p le_rfl,
    Store.insertAt_self]

/-- Witness for `importWalk_reorg_repair`: the stored block at height 1 has
hash `"A"`, the remote block at height 2 has parent hash `"B"`; the walk
continues past the mismatch and overwrites height 1 with the fetched
block. -/
theorem importWalk_reorg_repair_witness :
    importWalk reorgRemote false none 2 0 reorgStore
      = importWalk reorgRemote false none 1 1
          (reorgStore.insertAt 2 (reorgRemote 2))
    ∧ (importWalk reorgRemote false none 2 0 reorgStore).1 1
        = some (reorgRemote 1) :=
  importWalk_reorg_repair reorgRemote false none 1 0 reorgStore
    ⟨1, 0, 0, "A", "z"⟩ (by decide) (by decide) (by decide)

/-- Behaviour of the walk in initial-sync mode (`highest` absent): with
`synced = c` on entry and `m + 1` stores remaining before the 100-block cap,
and at least `m + 1` heights available above genesis, the walk stores the
remote blocks at exactly the heights `bn - m` .. `bn`, leaves every other
height untouched, and finishes with `synced = 100`. -/
theorem importWalk_initialSync (remote : Nat → Block) :
    ∀ (m bn c : Nat) (store : Store),
      c + 1 + m = INITIAL_SYNC_BLOCKS → m ≤ bn →
      (importWalk remote true none bn c store).2 = INITIAL_SYNC_BLOCKS
      ∧ (∀ k, bn - m ≤ k → k ≤ bn →
          (importWalk remote true none bn c store).1 k = some (remote k))
      ∧ (∀ k, k < bn - m ∨ bn < k →
          (importWalk remote true none bn c store).1 k = store k) := by
  intro m
  induction m with
  | zero =>
    intro bn c store hc _
    have hcap : (True ∧ c + 1 = INITIAL_SYNC_BLOCKS) := ⟨trivial, by omega⟩
    have hw : importWalk remote true none bn c store
        = (store.insertAt bn (remote bn), c + 1) := by
      cases bn with
      | zero =>
        simp only [importWalk]
        exact ite_self _
      | succ p =>
        simp only [importWalk]
        rw [if_pos hcap]
    rw [hw]
    refine ⟨by omega, ?_, ?_⟩
    · intro k hk1 hk2
      have hkbn : k = bn := by omega
      rw [hkbn]
      exact Store.insertAt_self store bn (remote bn)
    · intro k hk
      exact Store.insertAt_ne store bn (remote bn) k (by omega)
  | succ m ih =>
    intro bn c store hc hm
    obtain ⟨p, rfl⟩ : ∃ p, bn = p + 1 := ⟨bn - 1, by omega⟩
    have hnocap : ¬ (True ∧ c + 1 = INITIAL_SYNC_BLOCKS) := by
      rintro ⟨-, h2⟩
      omega
    have hw : importWalk remote true none (p + 1) c store
        = importWalk remote true none p (c + 1)
            (store.insertAt (p + 1) (remote (p + 1))) := by
      simp only [importWalk]
      rw [if_neg hnocap]
      cases hsc : (store.insertAt (p + 1) (remote (p + 1))) p with
      | none => rfl
      | some pb => exact ite_self _
    rw [hw]
    have hrec := ih p (c + 1) (store.insertAt (p + 1) (remote (p + 1)))
      (by omega) (by omega)
    refine ⟨hrec.1, ?_, ?_⟩
    · intro k hk1 hk2
      rcases Nat.lt_or_ge k (p + 1) with hlt | hge
      · exact hrec.2.1 k (by omega) (by omega)
      · have hk : k = p + 1 := by omega
        rw [hk, hrec.2.2 (p + 1) (Or.inr (by omega))]
        exact Store.insertAt_self store (p + 1) (remote (p + 1))
    · intro k hk
      rcases hk with hlo | hhi
      · rw [hrec.2.2 k (Or.inl (by omega))]
        exact Store.insertAt_ne store (p + 1) (remote (p + 1)) k (by omega)
      · rw [hrec.2.2 k (Or.inr (by omega))]
        exact Store.insertAt_ne store (p + 1) (remote (p + 1)) k (by omega)

/-- C2: on a chain with no stored high-water mark and remote head
`head ≥ 100`, the first pass performs exactly 100 block stores, at the
heights `head - 99` .. `head` (one fetched block at each, every other height
untouched, so genesis is not reached), and then persists the high-water mark
as `head`. -/
theorem importPass_initialSyncCap {C : Type} (chain : C) (remote : Nat → Block)
    (head : Nat) (store : Store) (hhead : 100 ≤ head) :
    (importWalk remote true none head 0 store).2 = 100
    ∧ (∀ k, head - 99 ≤ k → k ≤ head →
        (importWalk remote true none head 0 store).1 k = some (remote k))
    ∧ (∀ k, k < head - 99 ∨ head < k →
        (importWalk remote true none head 0 store).1 k = store k)
    ∧ (importPass chain remote head none store).1
        = (importWalk remote true none head 0 store).1
    ∧ (importPass chain remote head none store).2.1 = some head := by
  have h := importWalk_initialSync remote 99 head 0 store rfl (by omega)
  refine ⟨h.1, ?_, ?_, ?_, ?_⟩
  · intro k hk1 hk2
    exact h.2.1 k (by omega) hk2
  · intro k hk
    refine h.2.2 k ?_
    omega
  · simp [importPass]
  · simp [importPass]

/-- Witness for `importPass_initialSyncCap`: head 100 over an empty store. -/
theorem importPass_initialSyncCap_witness :
    (importWalk okRemote true none 100 0 emptyStore).2 = 100
    ∧ (∀ k, 100 - 99 ≤ k → k ≤ 100 →
        (importWalk okRemote true none 100 0 emptyStore).1 k
          = some (okRemote k))
    ∧ (∀ k, k < 100 - 99 ∨ 100 < k →
        (importWalk okRemote true none 100 0 emptyStore).1 k = emptyStore k)
    ∧ (importPass (0 : Nat) okRemote 100 none emptyStore).1
        = (importWalk okRemote true none 100 0 emptyStore).1
    ∧ (importPass (0 : Nat) okRemote 100 none emptyStore).2.1 = some 100 :=
  importPass_initialSyncCap 0 okRemote 100 emptyStore (by decide)

/-- Walk step: the predecessor is not stored, so the walk continues. -/
theorem importWalk_step_missing (remote : Nat → Block) (isync : Bool)
    (highest : Option Nat) (p c : Nat) (store : Store)
    (hnocap : ¬ (isync = true ∧ c + 1 = INITIAL_SYNC_BLOCKS))
    (hmiss : store p = none) :
    importWalk remote isync highest (p + 1) c store
      = importWalk remote isync highest p (c + 1)
          (store.insertAt (p + 1) (remote (p + 1))) := by
  have h1 : (store.insertAt (p + 1) (remote (p + 1))) p = none := by
    rw [Store.insertAt_ne _ _ _ _ (by omega)]
    exact hmiss
  simp only [importWalk]
  rw [if_neg hnocap, h1]

/-- Walk step: the stored predecessor's hash mismatches the fetched block's
parent hash (a reorg), so the walk continues. -/
theorem importWalk_step_mismatch (remote : Nat → Block) (isync : Bool)
    (highest : Option Nat) (p c : Nat) (store : Store) (pb : Block)
    (hnocap : ¬ (isync = true ∧ c + 1 = INITIAL_SYNC_BLOCKS))
    (hstored : store p = some pb)
    (hmm : pb.hash ≠ (remote (p + 1)).parent_hash) :
    importWalk remote isync highest (p + 1) c store
      = importWalk remote isync highest p (c + 1)
          (store.insertAt (p + 1) (remote (p + 1))) := by
  have h1 : (store.insertAt (p + 1) (remote (p + 1))) p = some pb := by
    rw [Store.insertAt_ne _ _ _ _ (by omega)]
    exact hstored
  simp only [importWalk]
  rw [if_neg hnocap, h1]
  exact if_pos hmm

/-- Walk step: the stored predecessor links up and sits at or below the old
high-water mark, so the walk stops. -/
theorem importWalk_step_match_stop (remote : Nat → Block) (isync : Bool)
    (hb p c : Nat) (store : Store) (pb : Block)
    (hnocap : ¬ (isync = true ∧ c + 1 = INITIAL_SYNC_BLOCKS))
    (hstored : store p = some pb)
    (hmatch : pb.hash = (remote (p + 1)).parent_hash)
    (hle : p ≤ hb) :
    importWalk remote isync (some hb) (p + 1) c store
      = (store.insertAt (p + 1) (remote (p + 1)), c + 1) := by
  have h1 : (store.insertAt (p + 1) (remote (p + 1))) p = some pb := by
    rw [Store.insertAt_ne _ _ _ _ (by omega)]
    exact hstored
  simp only [importWalk]
  rw [if_neg hnocap, h1]
  exact (if_neg (fun hne => hne hmatch)).trans (if_pos hle)

/-- Walk step: the stored predecessor links up but lies above the old
high-water mark (leftover partial import), so the walk continues. -/
theorem importWalk_step_match_go (remote : Nat → Block) (isync : Bool)
    (hb p c : Nat) (store : Store) (pb : Block)
    (hnocap : ¬ (isync = true ∧ c + 1 = INITIAL_SYNC_BLOCKS))
    (hstored : store p = some pb)
    (hmatch : pb.hash = (remote (p + 1)).parent_hash)
    (hgt : hb < p) :
    importWalk remote isync (some hb) (p + 1) c store
      = importWalk remote isync (some hb) p (c + 1)
          (store.insertAt (p + 1) (remote (p + 1))) := by
  have h1 : (store.insertAt (p + 1) (remote (p + 1))) p = some pb := by
    rw [Store.insertAt_ne _ _ _ _ (by omega)]
    exact hstored
  simp only [importWalk]
  rw [if_neg hnocap, h1]
  exact (if_neg (fun hne => hne hmatch)).trans (if_neg (by omega))

/-- Linkage at a height only depends on the stored pair at that height. -/
theorem linkedb_congr (s1 s2 : Store) (h : Nat) (e1 : s1 h = s2 h)
    (e2 : s1 (h - 1) = s2 (h - 1)) : linkedb s1 h = linkedb s2 h := by
  unfold linkedb
  rw [e1, e2]

/-- Continuity of the walk in non-initial-sync mode: if the fetched blocks
are mutually hash-consistent and the incoming store is hash-linked at every
pair with higher height at most `min bn s` (the old synced prefix the walk
can stop against), then after the walk every stored pair with higher height
at most `bn` is hash-linked; moreover the walk leaves heights above `bn`
untouched and stores the fetched block at `bn`. -/
theorem importWalk_continuity (remote : Nat → Block)
    (hrc : ∀ h, (remote (h + 1)).parent_hash = (remote h).hash) (s : Nat) :
    ∀ (bn c : Nat) (store : Store),
      (∀ h, 1 ≤ h → h ≤ bn → h ≤ s → linkedb store h = true) →
      (∀ h, 1 ≤ h → h ≤ bn →
        linkedb (importWalk remote false (some s) bn c store).1 h = true)
      ∧ (∀ k, bn < k →
          (importWalk remote false (some s) bn c store).1 k = store k)
      ∧ (importWalk remote false (some s) bn c store).1 bn
          = some (remote bn) := by
  intro bn
  induction bn with
  | zero =>
    intro c store _
    have hw : importWalk remote false (some s) 0 c store
        = (store.insertAt 0 (remote 0), c + 1) := by
      simp only [importWalk]
      exact ite_self _
    rw [hw]
    refine ⟨?_, ?_, Store.insertAt_self store 0 (remote 0)⟩
    · intro h h1 h0
      omega
    · intro k hk
      exact Store.insertAt_ne store 0 (remote 0) k (by omega)
  | succ p ih =>
    intro c store hpre
    have hnocap : ¬ ((false : Bool) = true ∧ c + 1 = INITIAL_SYNC_BLOCKS) := by
      rintro ⟨h, -⟩
      exact Bool.false_ne_true h
    have hpre1 : ∀ h, 1 ≤ h → h ≤ p → h ≤ s →
        linkedb (store.insertAt (p + 1) (remote (p + 1))) h = true := by
      intro h h1 hp hs
      rw [linkedb_congr _ store h
        (Store.insertAt_ne _ _ _ _ (by omega))
        (Store.insertAt_ne _ _ _ _ (by omega))]
      exact hpre h h1 (by omega) hs
    -- shared reasoning for the three continue cases
    have hgo : importWalk remote false (some s) (p + 1) c store
          = importWalk remote false (some s) p (c + 1)
              (store.insertAt (p + 1) (remote (p + 1))) →
        (∀ h, 1 ≤ h → h ≤ p + 1 →
          linkedb (importWalk remote false (some s) (p + 1) c store).1 h = true)
        ∧ (∀ k, p + 1 < k →
            (importWalk remote false (some s) (p + 1) c store).1 k = store k)
        ∧ (importWalk remote false (some s) (p + 1) c store).1 (p + 1)
            = some (remote (p + 1)) := by
      intro hstep
      have H := ih (c + 1) (store.insertAt (p + 1) (remote (p + 1))) hpre1
      have hfin1 : (importWalk remote false (some s) (p + 1) c store).1 (p + 1)
          = some (remote (p + 1)) := by
        rw [hstep, H.2.1 (p + 1) (by omega),
          Store.insertAt_self store (p + 1) (remote (p + 1))]
      refine ⟨?_, ?_, hfin1⟩
      · intro h h1 hp1
        rcases Nat.lt_or_ge h (p + 1) with hlt | hge
        · rw [hstep]
          exact H.1 h h1 (by omega)
        · have hh : h = p + 1 := by omega
          rw [hh]
          have hfin0 : (importWalk remote false (some s) (p + 1) c store).1 p
              = some (remote p) := by
            rw [hstep]
            exact H.2.2
          unfold linkedb
          rw [show p + 1 - 1 = p from by omega, hfin1, hfin0]
          simp [hrc p]
      · intro k hk
        rw [hstep, H.2.1 k (by omega),
          Store.insertAt_ne store (p + 1) (remote (p + 1)) k (by omega)]
    cases hsp : store p with
    | none =>
      exact hgo (importWalk_step_missing remote false (some s) p c store
        hnocap hsp)
    | some pb =>
      by_cases hmm : pb.hash ≠ (remote (p + 1)).parent_hash
      · exact hgo (importWalk_step_mismatch remote false (some s) p c store pb
          hnocap hsp hmm)
      · have hmatch : pb.hash = (remote (p + 1)).parent_hash := not_not.mp hmm
        by_cases hle : p ≤ s
        · have hstep := importWalk_step_match_stop remote false s p c store pb
            hnocap hsp hmatch hle
          have hsfin : (importWalk remote false (some s) (p + 1) c store).1
              = store.insertAt (p + 1) (remote (p + 1)) :=
            congrArg Prod.fst hstep
          refine ⟨?_, ?_, ?_⟩
          · intro h h1 hp1
            rw [hsfin]
            rcases Nat.lt_or_ge h (p + 1) with hlt | hge
            · rw [linkedb_congr _ store h
                (Store.insertAt_ne _ _ _ _ (by omega))
                (Store.insertAt_ne _ _ _ _ (by omega))]
              exact hpre h h1 (by omega) (by omega)
            · have hh : h = p + 1 := by omega
              rw [hh]
              unfold linkedb
              rw [show p + 1 - 1 = p from by omega,
                Store.insertAt_self store (p + 1) (remote (p + 1)),
                Store.insertAt_ne store (p + 1) (remote (p + 1)) p (by omega),
                hsp]
              simp [hmatch]
          · intro k hk
            rw [hsfin]
            exact Store.insertAt_ne store (p + 1) (remote (p + 1)) k (by omega)
          · rw [hsfin]
            exact Store.insertAt_self store (p + 1) (remote (p + 1))
        · exact hgo (importWalk_step_match_go remote false s p c store pb
            hnocap hsp hmatch (by omega))

/-- C1 (amended): after a non-no-op import pass with old high-water mark
`s`, given that the stored pairs at heights up to `s` were hash-linked
before the pass, that no other task writes the chain's keys during the pass
(inherent in the sequential model), and additionally that the blocks fetched
during the pass are mutually hash-consistent (the parent hash of the block
fetched at each height `h + 1` equals the hash of the block fetched at
height `h`), the pass persists the high-water mark as `head` and every
stored pair at adjacent heights up to `head` is hash-linked. -/
theorem importPass_continuity {C : Type} (chain : C) (remote : Nat → Block)
    (s head : Nat) (store : Store)
    (hrc : ∀ h, (remote (h + 1)).parent_hash = (remote h).hash)
    (hne : head ≠ s)
    (hpre : ∀ h, 1 ≤ h → h ≤ s → linkedb store h = true) :
    (importPass chain remote head (some s) store).2.1 = some head
    ∧ ∀ h, 1 ≤ h → h ≤ head →
        linkedb (importPass chain remote head (some s) store).1 h = true := by
  have hps : importPass chain remote head (some s) store
      = ((importWalk remote false (some s) head 0 store).1, some head,
          [Job.Import chain]) := by
    unfold importPass
    rw [if_neg (fun hsome => hne (Option.some.inj hsome).symm)]
    rfl
  have H := importWalk_continuity remote hrc s head 0 store
    (fun h a _ c => hpre h a c)
  refine ⟨by rw [hps], ?_⟩
  intro h h1 hh
  rw [hps]
  exact H.1 h h1 hh

/-- C1, as stated, is false: with old high-water mark 5, head 7, a store
whose prefix is hash-linked, and remote responses that are mutually
inconsistent (as after a remote reorg between the fetch at height 7 and the
fetch at height 6), the pass completes, persists high-water mark 7, and
leaves a stored adjacent pair below 7 that is not hash-linked. -/
theorem importPass_continuity_cex :
    (∀ h, 1 ≤ h → h ≤ 5 → linkedb cexStore h = true)
    ∧ (importPass (0 : Nat) cexRemote 7 (some 5) cexStore).2.1 = some 7
    ∧ ¬ (∀ h, 1 ≤ h → h ≤ 7 →
        linkedb (importPass (0 : Nat) cexRemote 7 (some 5) cexStore).1 h
          = true) := by
  refine ⟨?_, by decide, fun hall => ?_⟩
  · intro h h1 h5
    interval_cases h <;> decide
  · have h7 := hall 7 (by omega) (by omega)
    revert h7
    decide

/-- Witness for `importPass_continuity`: a hash-consistent remote, old
high-water mark 1, head 2, over an empty store. -/
theorem importPass_continuity_witness :
    (importPass (0 : Nat) okRemote 2 (some 1) emptyStore).2.1 = some 2
    ∧ ∀ h, 1 ≤ h → h ≤ 2 →
        linkedb (importPass (0 : Nat) okRemote 2 (some 1) emptyStore).1 h
          = true :=
  importPass_continuity 0 okRemote 1 2 emptyStore (fun _ => rfl) (by decide)
    (fun _ _ _ => rfl)

/-- On the ten-block synthetic chain, the loop entered at height `p` with
accumulator `a` adds the five transactions of each of the current blocks
`p`, `p - 1`, .., `1` and stops at genesis with the timestamp of block 0
(which is `t0`), excluding block 0's own transactions. -/
theorem calcLoop_c3 (t0 : Nat) (ht : seconds_per_week ≤ t0) :
    ∀ (p a : Nat), 1 ≤ p → p ≤ 9 → a + 5 * p ≤ 45 →
      calcLoop (c3Store t0) (t0 + 60 * 9 - seconds_per_week) p (c3Block t0 p) a
        = .done (a + 5 * p) t0 := by
  intro p
  induction p with
  | zero =>
    intro a h1 _ _
    omega
  | succ q ih =>
    intro a h1 h9 hbound
    have hload : c3Store t0 q = some (c3Block t0 q) := by
      unfold c3Store
      rw [if_pos (by omega)]
    have h45 : (45 : Nat) < u64Bound := by norm_num [u64Bound]
    have hofl : a + (c3Block t0 (q + 1)).num_txs < u64Bound := by
      show a + 5 < u64Bound
      omega
    have hts : ¬ ((c3Block t0 q).timestamp
        ≤ t0 + 60 * 9 - seconds_per_week) := by
      show ¬ (t0 + 60 * q ≤ t0 + 60 * 9 - seconds_per_week)
      simp only [seconds_per_week] at ht ⊢
      omega
    simp only [calcLoop]
    rw [hload]
    rcases Nat.eq_zero_or_pos q with hq0 | hqpos
    · subst hq0
      exact (if_pos hofl).trans ((if_neg hts).trans (if_pos rfl))
    · have hbn : ¬ ((c3Block t0 q).block_number = 0) := by
        show ¬ (q = 0)
        omega
      have hrec := ih (a + 5) (by omega) (by omega) (by omega)
      rw [show a + 5 + 5 * q = a + 5 * (q + 1) from by omega] at hrec
      exact (if_pos hofl).trans ((if_neg hts).trans ((if_neg hbn).trans hrec))

/-- Characterization of `calculate_for_chain` once the block at the
high-water mark is present and its timestamp does not underflow the
seven-day subtraction: the result is determined by the loop outcome,
followed by the assertion and the two 32-bit range checks. -/
theorem calc_spec (hbn : Nat) (load : Nat → Option Block) (b : Block)
    (hsome : load hbn = some b) (ht : seconds_per_week ≤ b.timestamp) :
    calculate_for_chain (some hbn) load
      = match calcLoop load (b.timestamp - seconds_per_week) hbn b 0 with
        | .panicked m => .panicked m
        | .done num_txs init_timestamp =>
          if b.timestamp < init_timestamp then
            .panicked "assertion failed: init_timestamp <= latest_timestamp"
          else if u32Bound ≤ b.timestamp - init_timestamp then
            .failed "seconds overflows u32"
          else if u32Bound ≤ num_txs then
            .failed "num txs overflows u32"
          else
            .ok num_txs (b.timestamp - init_timestamp) := by
  conv_lhs => whnf
  rw [hsome]
  exact if_neg (Nat.not_lt.mpr ht)

/-- C3: on a chain of ten locally stored blocks at heights 0..9, timestamps
60 seconds apart (window span 540 seconds, under 7 days) and five
transactions each, the calculation walks back from the high-water mark 9,
stops at genesis, excludes the boundary block's own transactions from the
numerator, and yields the TPS fraction 45 / 540 (numerator: transactions of
blocks 9..1; denominator: latest timestamp minus boundary timestamp). -/
theorem calculate_tps_window (t0 : Nat) (ht : seconds_per_week ≤ t0) :
    calculate_for_chain (some 9) (c3Store t0) = .ok 45 540 := by
  have hload9 : c3Store t0 9 = some (c3Block t0 9) := by
    unfold c3Store
    rw [if_pos (by omega)]
  have hloop := calcLoop_c3 t0 ht 9 0 (by omega) (by omega) (by omega)
  have h32 : (540 : Nat) < u32Bound := by norm_num [u32Bound]
  rw [calc_spec 9 (c3Store t0) (c3Block t0 9) hload9
    (show seconds_per_week ≤ t0 + 60 * 9 from by omega)]
  rw [show (c3Block t0 9).timestamp = t0 + 60 * 9 from rfl, hloop]
  refine ((if_neg (show ¬ (t0 + 60 * 9 < t0) from by omega)).trans
    ((if_neg (show ¬ (u32Bound ≤ t0 + 60 * 9 - t0) from by omega)).trans
      ((if_neg (show ¬ (u32Bound ≤ 0 + 5 * 9) from by omega)).trans ?_)))
  rw [show t0 + 60 * 9 - t0 = 540 from by omega]

/-- Witness for `calculate_tps_window` at base timestamp 604800. -/
theorem calculate_tps_window_witness :
    calculate_for_chain (some 9) (c3Store 604800) = .ok 45 540 :=
  calculate_tps_window 604800 (by norm_num [seconds_per_week])

/-- C8: `calculate_for_chain` panics (rather than returning a recoverable
error) when the store has a high-water mark but no block stored there
(`expect("first block")`), when the high-water mark is 0 (the
`assert!(current_block_number != 0)` on the first loop iteration), or when
the latest block's timestamp is under 604800
(`checked_sub(..).expect("underflow")`); none of these reach the per-chain
`failed` path. -/
theorem calculate_for_chain_panics :
    (∀ (s : Nat) (load : Nat → Option Block), load s = none →
      calculate_for_chain (some s) load = .panicked "first block")
    ∧ (∀ (load : Nat → Option Block) (b : Block), load 0 = some b →
        seconds_per_week ≤ b.timestamp →
        calculate_for_chain (some 0) load
          = .panicked "assertion failed: current_block_number != 0")
    ∧ (∀ (s : Nat) (load : Nat → Option Block) (b : Block), load s = some b →
        b.timestamp < seconds_per_week →
        calculate_for_chain (some s) load = .panicked "underflow") := by
  refine ⟨?_, ?_, ?_⟩
  · intro s load h
    conv_lhs => whnf
    rw [h]
  · intro load b h ht
    rw [calc_spec 0 load b h ht]
    rfl
  · intro s load b h hlt
    conv_lhs => whnf
    rw [h]
    exact if_pos hlt

/-- Witness for `calculate_for_chain_panics`: a missing high-water-mark
block, a genesis-only store, and a store whose latest timestamp is one
second short of a week. -/
theorem calculate_for_chain_panics_witness :
    calculate_for_chain (some 5) emptyStore = .panicked "first block"
    ∧ calculate_for_chain (some 0) zeroLoad
        = .panicked "assertion failed: current_block_number != 0"
    ∧ calculate_for_chain (some 2) staleLoad = .panicked "underflow" :=
  ⟨calculate_for_chain_panics.1 5 emptyStore rfl,
   calculate_for_chain_panics.2.1 zeroLoad ⟨0, 604800, 7, "a", "b"⟩ rfl
     (by norm_num [seconds_per_week]),
   calculate_for_chain_panics.2.2 2 staleLoad ⟨2, 604799, 7, "a", "b"⟩ rfl
     (by norm_num [seconds_per_week])⟩

/-- C10: when the block immediately below the (positive) high-water mark is
absent, the calculation stops on its first iteration with zero accumulated
transactions and a zero-second window, succeeds with numerator 0 and
denominator 0 (the source then performs the unguarded `f64` division
`0.0 / 0.0`, which is NaN), and the enclosing pass stores that value rather
than reporting an error. -/
theorem calculate_nan_on_missing_predecessor {C : Type} (c : C) (s : Nat)
    (load : Nat → Option Block) (b : Block)
    (hs : load (s + 1) = some b)
    (ht : seconds_per_week ≤ b.timestamp)
    (hmiss : load s = none) :
    calculate_for_chain (some (s + 1)) load = .ok 0 0
    ∧ calcCollect (fun _ : C => some (s + 1)) (fun _ => load) [c]
        = ([(c, 0, 0)], none) := by
  have hA : ¬ (u32Bound ≤ b.timestamp - b.timestamp) := by
    rw [Nat.sub_self]
    norm_num [u32Bound]
  have hB : ¬ (u32Bound ≤ (0 : Nat)) := by
    norm_num [u32Bound]
  have h1 : calculate_for_chain (some (s + 1)) load = .ok 0 0 := by
    rw [calc_spec (s + 1) load b hs ht]
    have hl : calcLoop load (b.timestamp - seconds_per_week) (s + 1) b 0
        = .done 0 b.timestamp := by
      simp only [calcLoop]
      rw [hmiss]
    rw [hl]
    refine ((if_neg (lt_irrefl b.timestamp)).trans
      ((if_neg hA).trans ((if_neg hB).trans ?_)))
    rw [Nat.sub_self]
  refine ⟨h1, ?_⟩
  simp only [calcCollect, h1]

/-- Witness for `calculate_nan_on_missing_predecessor`: high-water mark 3,
a single block stored there, nothing at height 2. -/
theorem calculate_nan_on_missing_predecessor_witness :
    calculate_for_chain (some 3)
        (fun k => if k = 3 then some ⟨3, 604800, 7, "a", "b"⟩ else none)
      = .ok 0 0
    ∧ calcCollect (fun _ : Nat => some 3)
        (fun _ k => if k = 3 then some ⟨3, 604800, 7, "a", "b"⟩ else none) [5]
        = ([(5, 0, 0)], none) :=
  calculate_nan_on_missing_predecessor 5 2
    (fun k => if k = 3 then some ⟨3, 604800, 7, "a", "b"⟩ else none)
    ⟨3, 604800, 7, "a", "b"⟩ rfl (by norm_num [seconds_per_week]) rfl

/-- C6: in a `Calculate` pass, as long as no chain's task panics, every
chain whose calculation returns an error (absent high-water mark, or a
32-bit range failure) is merely skipped — no TPS is stored for it and no
job abort happens — while every chain whose calculation succeeds has its
TPS stored; an absent high-water mark yields the error outcome, and so do
an accumulated transaction count or a window span that does not fit 32
bits (no wrapping or clamping). -/
theorem calculate_per_chain_isolation :
    (∀ (C : Type) (chains : List C) (hwm : C → Option Nat)
        (load : C → Nat → Option Block),
      (∀ c ∈ chains, isPanic (calculate_for_chain (hwm c) (load c)) = false) →
      calcCollect hwm load chains
        = (chains.filterMap
            (fun c => okStore? c (calculate_for_chain (hwm c) (load c))),
           none))
    ∧ (∀ load, calculate_for_chain none load = .failed "no data for chain")
    ∧ calculate_for_chain (some 1) bigTxLoad = .failed "num txs overflows u32"
    ∧ calculate_for_chain (some 1) bigSpanLoad
        = .failed "seconds overflows u32" := by
  refine ⟨?_, fun _ => rfl, by decide, by decide⟩
  intro C chains hwm load
  induction chains with
  | nil =>
    intro _
    rfl
  | cons c rest ih =>
    intro hnp
    have hc := hnp c (by simp)
    have hrest := ih (fun x hx => hnp x (by simp [hx]))
    cases hres : calculate_for_chain (hwm c) (load c) with
    | panicked m =>
      rw [hres] at hc
      simp [isPanic] at hc
    | failed m =>
      simp only [calcCollect, hres, hrest, List.filterMap_cons, okStore?]
    | ok n d =>
      simp only [calcCollect, hres, hrest, List.filterMap_cons, okStore?]

/-- Witness for `calculate_per_chain_isolation`: chain 0 has no high-water
mark (its calculation fails and is skipped), chain 1 succeeds and its TPS
is stored. -/
theorem calculate_per_chain_isolation_witness :
    calcCollect c6hwm c6load [0, 1]
      = ([0, 1].filterMap
          (fun c => okStore? c (calculate_for_chain (c6hwm c) (c6load c))),
         none) :=
  calculate_per_chain_isolation.1 Nat [0, 1] c6hwm c6load (by decide)

/-- C9: every import pass returns exactly the singleton follow-up
`[Import chain]`, every successful calculate pass returns exactly
`[Calculate]`, `do_job` returns exactly one follow-up job for both the
success and the error outcome, and therefore one scheduler turn preserves
the size of the job pool — a non-empty pool stays non-empty, so the
"no more jobs" branch of `run` is unreachable once the pool is seeded. -/
theorem jobs_self_replenish :
    (∀ (C : Type) (chain : C) (remote : Nat → Block) (head : Nat)
        (highest : Option Nat) (store : Store),
      (importPass chain remote head highest store).2.2 = [Job.Import chain])
    ∧ (∀ (C : Type) (chains : List C) (hwm : C → Option Nat)
        (load : C → Nat → Option Block) (stored : List (C × Nat × Nat))
        (jobs : List (Job C)),
        Importer.calculate chains hwm load = .ok (stored, jobs) →
        jobs = [Job.Calculate])
    ∧ (∀ (C : Type) (job : Job C) (r : Except String (List (Job C))),
        (∀ js, r = .ok js → js.length = 1) → (do_job job r).length = 1)
    ∧ (∀ (C : Type) (pool : List (Job C)) (i : Nat)
        (r : Except String (List (Job C))) (j : Job C),
        pool[i]? = some j →
        (∀ js, r = .ok js → js.length = 1) →
        (schedStep pool i r).length = pool.length
        ∧ schedStep pool i r ≠ []) := by
  refine ⟨?_, ?_, ?_, ?_⟩
  · intro C chain remote head highest store
    unfold importPass
    split <;> rfl
  · intro C chains hwm load stored jobs h
    unfold Importer.calculate at h
    rcases hcc : calcCollect hwm load chains with ⟨st, e⟩
    rw [hcc] at h
    cases e with
    | none => exact ((Prod.mk.injEq _ _ _ _).mp (Except.ok.inj h)).2.symm
    | some m => exact Except.noConfusion h
  · intro C job r hr
    cases r with
    | ok js => exact hr js rfl
    | error e => rfl
  · intro C pool i r j hj hr
    have hi : i < pool.length := by
      by_contra hni
      rw [List.getElem?_len_le (by omega)] at hj
      exact Option.noConfusion hj
    have hdj : (do_job j r).length = 1 := by
      cases r with
      | ok js => exact hr js rfl
      | error e => rfl
    have hstep : schedStep pool i r = pool.eraseIdx i ++ do_job j r := by
      unfold schedStep
      rw [hj]
    have hlen : (schedStep pool i r).length = pool.length := by
      rw [hstep, List.length_append, hdj]
      have := List.length_eraseIdx_add_one hi
      omega
    refine ⟨hlen, ?_⟩
    intro hnil
    rw [hnil] at hlen
    simp at hlen
    omega

/-- Witness for `jobs_self_replenish`: an import pass, a successful
calculate pass, a `do_job` on a success outcome, and a scheduler turn on a
two-job pool whose completed job failed. -/
theorem jobs_self_replenish_witness :
    (importPass (0 : Nat) okRemote 3 none emptyStore).2.2 = [Job.Import 0]
    ∧ ([Job.Calculate] : List (Job Nat)) = [Job.Calculate]
    ∧ (do_job (Job.Import (0 : Nat)) (Except.ok [Job.Calculate])).length = 1
    ∧ ((schedStep [Job.Import (0 : Nat), Job.Calculate] 0
          (Except.error "e")).length
        = ([Job.Import (0 : Nat), Job.Calculate] : List (Job Nat)).length
      ∧ schedStep [Job.Import (0 : Nat), Job.Calculate] 0
          (Except.error "e") ≠ []) :=
  ⟨jobs_self_replenish.1 Nat 0 okRemote 3 none emptyStore,
   jobs_self_replenish.2.1 Nat [0, 1] c6hwm c6load
     [(1, 7, 100)] [Job.Calculate] rfl,
   jobs_self_replenish.2.2.1 Nat (Job.Import 0) (Except.ok [Job.Calculate])
     (fun js h => by cases h; rfl),
   jobs_self_replenish.2.2.2 Nat [Job.Import 0, Job.Calculate] 0
     (Except.error "e") (Job.Import 0) rfl
     (fun js h => Except.noConfusion h)⟩

/-- C5 (code evaluation): `EthersClient::get_block` maps a node's missing
block to the absent value `Ok(None)`, but `SolanaClient::get_block`
propagates the RPC failure a missing block produces (the `?` on
`self.get_block(..)`) and can never return the absent value at all — a
missing block on the Solana client is indistinguishable from a
transport/protocol error, contradicting the per-client contract. -/
theorem solana_get_block_never_absent :
    EthersClient.get_block none = .ok none
    ∧ SolanaClient.get_block (.failed "missing block")
        = .failed "missing block"
    ∧ (SolanaClient.get_block (.ok ⟨some 7, some 1, 3, "h", "p"⟩)
        = .ok (some ⟨7, 1, 3, "h", "p"⟩)) :=
  ⟨rfl, rfl, rfl⟩
